import Mathlib

/-!
Verification development for the MedAssist medical-document ingestion
pipeline (server/documentRoutes): text extraction with OCR fallback,
structured AI extraction with retry/backoff, the orchestrator's status
state machine, and the document query/reprocess API.

The definitions below are a shallow embedding of the TypeScript source.
External effects (the PDF text layer parser, the OCR engine, the file
system, the generative-AI calls) are modelled as oracle parameters, since
the source wraps each of them so that it either returns a value or throws
a JavaScript exception; exceptions are modelled with `Except String`.
-/

namespace MedAssist

/-- Character class trimmed by JavaScript `String.prototype.trim`
(model of the whitespace class on the ASCII range). -/
def isJsWhitespace (c : Char) : Bool :=
  c = ' ' || c = '\t' || c = '\n' || c = '\r'

/-- Drop JS whitespace from the front of a character list. -/
def trimLeftChars (l : List Char) : List Char :=
  l.dropWhile isJsWhitespace

/-- Drop JS whitespace from the back of a character list. -/
def trimRightChars (l : List Char) : List Char :=
  (l.reverse.dropWhile isJsWhitespace).reverse

/-- Model of JS `s.trim()` on the underlying character list. -/
def trimChars (l : List Char) : List Char :=
  trimRightChars (trimLeftChars l)

/-- Model of JS `s.trim()`. -/
def jsTrim (s : String) : String :=
  ⟨trimChars s.data⟩

/-- JS `a || b` on strings: the empty string is the only falsy string. -/
def jsOrString (a b : String) : String :=
  if a = "" then b else a

/-- JS `a || b` where `a` is a possibly-undefined string
(`undefined` and `""` are both falsy). -/
def jsOrOptString (a : Option String) (b : String) : String :=
  match a with
  | Option.none => b
  | Option.some s => jsOrString s b

/-- `type ExtractionMethod = "embedded_text" | "ocr" | "none"`. -/
inductive ExtractionMethod where
  | embedded_text
  | ocr
  | none
deriving DecidableEq, Repr

/-- `type ExtractionResult = { text, method, error? }`. -/
structure ExtractionResult where
  text : String
  method : ExtractionMethod
  error : Option String := Option.none
deriving DecidableEq, Repr

/-- Oracles for the extraction stage's external effects.
`fileSize p = none` models a path that does not exist on disk;
`pdfText` is the raw string produced by `extractEmbeddedTextFromPDF`
and `ocrText` the raw string produced by `extractTextFromImageOCR`
(both of those wrappers catch their own exceptions and return `""`,
so they are modelled as total functions). -/
structure Extern where
  fileSize : String → Option Nat
  pdfText : String → String
  ocrText : String → String

/-- Model of `fs.existsSync`. -/
def existsSync (ext : Extern) (p : String) : Bool :=
  (ext.fileSize p).isSome

/-- Model of `fs.statSync(...).size`: throws `ENOENT` when the path
does not exist. -/
def statSyncSize (ext : Extern) (p : String) : Except String Nat :=
  match ext.fileSize p with
  | Option.none => Except.error "ENOENT"
  | Option.some n => Except.ok n

/-- Embedding of `extractTextFromPDFWithFallback`, instrumented with a
Boolean recording whether the OCR fallback stage was invoked.  The
source calls `fs.statSync(filePath)` BEFORE its `fs.existsSync` check,
so a missing file makes the very first line throw. -/
def extractTextFromPDFWithFallbackT (ext : Extern) (filePath : String) :
    Except String (ExtractionResult × Bool) := do
  let fileStatsSize ← statSyncSize ext filePath
  if existsSync ext filePath = false then
    return ({ text := "", method := ExtractionMethod.none,
              error := Option.some "File not found on server" }, false)
  if fileStatsSize = 0 then
    return ({ text := "", method := ExtractionMethod.none,
              error := Option.some "File is empty" }, false)
  let trimmedText := jsTrim (ext.pdfText filePath)
  if trimmedText.length ≥ 50 then
    return ({ text := trimmedText, method := ExtractionMethod.embedded_text }, false)
  let trimmedOcrText := jsTrim (ext.ocrText filePath)
  if trimmedOcrText.length ≥ 20 then
    return ({ text := trimmedOcrText, method := ExtractionMethod.ocr }, true)
  return ({ text := jsOrString trimmedText trimmedOcrText,
            method := ExtractionMethod.none,
            error := Option.some "Could not extract sufficient text. The document may be unreadable or contain only images without text." }, true)

/-- `extractTextFromPDFWithFallback` as the caller sees it. -/
def extractTextFromPDFWithFallback (ext : Extern) (filePath : String) :
    Except String ExtractionResult :=
  (extractTextFromPDFWithFallbackT ext filePath).map Prod.fst

/-- Embedding of `extractTextFromImage`.  Here the source checks
`fs.existsSync` before calling `fs.statSync`, so, the file system
being the single oracle, no exception can escape; the function is
embedded as a total one. -/
def extractTextFromImage (ext : Extern) (filePath : String) :
    ExtractionResult :=
  match ext.fileSize filePath with
  | Option.none =>
      { text := "", method := ExtractionMethod.none,
        error := Option.some "File not found on server" }
  | Option.some n =>
      if n = 0 then
        { text := "", method := ExtractionMethod.none,
          error := Option.some "File is empty" }
      else
        let trimmedText := jsTrim (ext.ocrText filePath)
        if trimmedText.length ≥ 20 then
          { text := trimmedText, method := ExtractionMethod.ocr }
        else
          { text := trimmedText, method := ExtractionMethod.none,
            error := Option.some "Could not extract text from image. The image may be too blurry or contain no readable text." }

/-- `type DocType = "BLOOD_TEST" | "IMAGING" | "DOCTOR_NOTE" | "OTHER"`. -/
inductive DocType where
  | BLOOD_TEST
  | IMAGING
  | DOCTOR_NOTE
  | OTHER
deriving DecidableEq, Repr

/-- `type ExtractionStatus = "PENDING" | "PROCESSING" | "SUCCESS" | "FAILED"`. -/
inductive ExtractionStatus where
  | PENDING
  | PROCESSING
  | SUCCESS
  | FAILED
deriving DecidableEq, Repr

/-- One entry of `labs` in `ExtractedDocumentData`. -/
structure LabResult where
  testName : String
  value : String
  unit : String
  refRange : Option String := Option.none
  flag : Option String := Option.none
  resultDate : Option String := Option.none
deriving DecidableEq, Repr

/-- `ExtractedDocumentData` after the post-parse backfill in
`extractStructuredData`: all array fields and `shortSummary` present,
`confidence` numeric (JS numbers are modelled as rationals). -/
structure ExtractedDocumentData where
  docTypeGuess : Option String
  docDateGuess : Option String
  labs : List LabResult
  medsMentioned : List String
  diagnosesMentioned : List String
  followupStatements : List String
  shortSummary : String
  confidence : Rat
deriving DecidableEq, Repr

/-- The object produced by `JSON.parse` of the model response, before the
backfill: each field may be absent (or, for `confidence`, non-numeric),
modelled with `Option`.  `shortSummary := some ""` and absence both count
as falsy in the source's `if (!parsed.shortSummary)` test and lead to the
same backfilled value. -/
structure RawParsed where
  docTypeGuess : Option String := Option.none
  docDateGuess : Option String := Option.none
  labs : Option (List LabResult) := Option.none
  medsMentioned : Option (List String) := Option.none
  diagnosesMentioned : Option (List String) := Option.none
  followupStatements : Option (List String) := Option.none
  shortSummary : Option String := Option.none
  confidence : Option Rat := Option.none
deriving DecidableEq, Repr

/-- The six backfill statements after `JSON.parse` in
`extractStructuredData`: missing arrays become `[]`, a falsy
`shortSummary` becomes `""`, and a `confidence` whose `typeof` is not
`"number"` becomes `0.5`.  A numeric `confidence` is passed through
unchanged. -/
def backfillParsed (r : RawParsed) : ExtractedDocumentData where
  docTypeGuess := r.docTypeGuess
  docDateGuess := r.docDateGuess
  labs := r.labs.getD []
  medsMentioned := r.medsMentioned.getD []
  diagnosesMentioned := r.diagnosesMentioned.getD []
  followupStatements := r.followupStatements.getD []
  shortSummary := r.shortSummary.getD ""
  confidence := r.confidence.getD (1 / 2 : Rat)

/-- Outcome of one iteration of the Gemini retry loop's `try` block:
the call-plus-parse either yields a parsed object, or throws an error
classified as rate limiting (`error.status === 429` or a message
containing "429"), or throws any other error (including `JSON.parse`
failures). -/
inductive AttemptOutcome where
  | ok (raw : RawParsed)
  | rateLimit
  | otherError
deriving DecidableEq, Repr

/-- Result of `extractStructuredData`, instrumented with the sleeps the
loop performed (in ms, in order) and the number of attempts made. -/
structure StructResult where
  result : Option ExtractedDocumentData
  sleeps : List Nat
  attemptsMade : Nat
deriving DecidableEq, Repr

/-- `const maxRetries = 3`. -/
def maxRetries : Nat := 3

/-- `const baseDelay = 5000`. -/
def baseDelay : Nat := 5000

/-- The `for (let attempt = 1; attempt <= maxRetries; attempt++)` loop of
`extractStructuredData`.  `remaining` is the loop fuel
(`maxRetries + 1 - attempt`); the `remaining = 0` base case is the
function's final `return null` after the loop.  A rate-limit error with
`attempt < maxRetries` sleeps `baseDelay * 2 ^ (attempt - 1)` ms and
retries; any error on the last attempt returns `null`; a non-rate-limit
error before the last attempt retries without sleeping. -/
def runGeminiAttempts (oracle : Nat → AttemptOutcome) :
    Nat → Nat → StructResult
  | _, 0 => { result := Option.none, sleeps := [], attemptsMade := 0 }
  | attempt, r + 1 =>
    match oracle attempt with
    | AttemptOutcome.ok raw =>
        { result := Option.some (backfillParsed raw), sleeps := [],
          attemptsMade := 1 }
    | AttemptOutcome.rateLimit =>
        if attempt < maxRetries then
          let rest := runGeminiAttempts oracle (attempt + 1) r
          { result := rest.result,
            sleeps := baseDelay * 2 ^ (attempt - 1) :: rest.sleeps,
            attemptsMade := rest.attemptsMade + 1 }
        else
          { result := Option.none, sleeps := [], attemptsMade := 1 }
    | AttemptOutcome.otherError =>
        if attempt = maxRetries then
          { result := Option.none, sleeps := [], attemptsMade := 1 }
        else
          let rest := runGeminiAttempts oracle (attempt + 1) r
          { result := rest.result, sleeps := rest.sleeps,
            attemptsMade := rest.attemptsMade + 1 }

/-- Oracles for `extractStructuredData`'s external effects:
whether `process.env.GEMINI_API_KEY` is set, the outcome of the awaited
`getSystemPrompt` database read (which is NOT inside the retry loop's
`try` and may throw), and the outcome of each numbered attempt. -/
structure GeminiEnv where
  hasApiKey : Bool
  promptRes : Except String String
  oracle : Nat → AttemptOutcome

/-- Embedding of `extractStructuredData`: returns `null` without any AI
call when the raw text is falsy or trims to fewer than 10 characters, or
when no API key is configured; otherwise fetches the system prompt
(possibly throwing), truncates the text to 8000 characters for the user
message, and runs the retry loop. -/
def extractStructuredData (env : GeminiEnv) (rawText : String)
    (_docType : DocType) (_language : String) : Except String StructResult :=
  if rawText = "" || (jsTrim rawText).length < 10 then
    Except.ok { result := Option.none, sleeps := [], attemptsMade := 0 }
  else if env.hasApiKey = false then
    Except.ok { result := Option.none, sleeps := [], attemptsMade := 0 }
  else do
    let _systemPrompt ← env.promptRes
    let _truncated := rawText.take 8000
    Except.ok (runGeminiAttempts env.oracle 1 maxRetries)

/-- The object serialized into the `extracted_json` column on success:
`JSON.stringify({ ...extractedData, extractionMethod })`.  The stored
text is modelled by the structured value it serializes (the claims under
verification only inspect its nullability). -/
structure StoredPayload where
  data : ExtractedDocumentData
  extractionMethod : ExtractionMethod
deriving DecidableEq, Repr

/-- One row of the `medical_documents` table (shared/schema.ts).
Timestamps are modelled as naturals. -/
structure DocRecord where
  id : String
  userId : String
  filename : String
  storagePath : String
  mimeType : String
  sizeBytes : Nat
  docType : DocType
  uploadedAt : Nat
  deletedAt : Option Nat
  extractionStatus : ExtractionStatus
  extractedJson : Option StoredPayload
  summaryText : Option String
deriving DecidableEq, Repr

/-- The insert performed by the upload routes: the listed columns from
`.values({...})`, the rest from the schema defaults
(`extraction_status 'PENDING'`, `extracted_json`/`summary_text`/
`deleted_at` null). -/
def uploadInsert (id userId filename storagePath mimeType : String)
    (sizeBytes : Nat) (docType : DocType) (uploadedAt : Nat) : DocRecord where
  id := id
  userId := userId
  filename := filename
  storagePath := storagePath
  mimeType := mimeType
  sizeBytes := sizeBytes
  docType := docType
  uploadedAt := uploadedAt
  deletedAt := Option.none
  extractionStatus := ExtractionStatus.PENDING
  extractedJson := Option.none
  summaryText := Option.none

/-- The orchestrator's first write: `.set({ extractionStatus: "PROCESSING" })`. -/
def setProcessing (d : DocRecord) : DocRecord :=
  { d with extractionStatus := ExtractionStatus.PROCESSING }

/-- The orchestrator's failure writes:
`.set({ extractionStatus: "FAILED", summaryText: msg })`. -/
def setFailed (d : DocRecord) (msg : String) : DocRecord :=
  { d with extractionStatus := ExtractionStatus.FAILED,
           summaryText := Option.some msg }

/-- The orchestrator's success write: `.set({ extractionStatus: "SUCCESS",
extractedJson: JSON.stringify(...), summaryText: shortSummary })`. -/
def setSuccess (d : DocRecord) (payload : StoredPayload) (summary : String) :
    DocRecord :=
  { d with extractionStatus := ExtractionStatus.SUCCESS,
           extractedJson := Option.some payload,
           summaryText := Option.some summary }

/-- The reprocess route's reset write: `.set({ extractionStatus: "PENDING",
extractedJson: null, summaryText: null })`. -/
def reprocessReset (d : DocRecord) : DocRecord :=
  { d with extractionStatus := ExtractionStatus.PENDING,
           extractedJson := Option.none,
           summaryText := Option.none }

/-- The delete route's write: `.set({ deletedAt: new Date() })`. -/
def softDelete (d : DocRecord) (t : Nat) : DocRecord :=
  { d with deletedAt := Option.some t }

/-- All states a document row can be in, closed under every write the
repository performs on the row.  The guards record the program order in
which the writes occur: the `PROCESSING` write is the first statement of
`processDocument`, which is invoked only immediately after an upload
insert or a reprocess reset (both leave the row `PENDING`); the
`FAILED`/`SUCCESS` writes occur later in the same run, after the
`PROCESSING` write; the reprocess reset is guarded by the route's
rejection of documents currently `PROCESSING`.  Each pipeline run owns
exclusive read-modify-write access to its row. -/
inductive Reachable : DocRecord → Prop where
  | upload (id userId filename storagePath mimeType : String)
      (sizeBytes : Nat) (docType : DocType) (uploadedAt : Nat) :
      Reachable (uploadInsert id userId filename storagePath mimeType
        sizeBytes docType uploadedAt)
  | toProcessing {d : DocRecord} : Reachable d →
      d.extractionStatus = ExtractionStatus.PENDING →
      Reachable (setProcessing d)
  | toFailed {d : DocRecord} (msg : String) : Reachable d →
      d.extractionStatus = ExtractionStatus.PROCESSING →
      Reachable (setFailed d msg)
  | toSuccess {d : DocRecord} (payload : StoredPayload) (summary : String) :
      Reachable d →
      d.extractionStatus = ExtractionStatus.PROCESSING →
      Reachable (setSuccess d payload summary)
  | reprocess {d : DocRecord} : Reachable d →
      d.extractionStatus ≠ ExtractionStatus.PROCESSING →
      Reachable (reprocessReset d)
  | delete {d : DocRecord} (t : Nat) : Reachable d →
      Reachable (softDelete d t)

/-- Embedding of `processDocument`: the orchestrator run on one document
row.  Its `try` block sets `PROCESSING`, dispatches on the MIME type,
fails fast on `method === "none" || text.length < 10`, otherwise calls
`extractStructuredData`; the top-level `catch` turns any thrown error
into the generic `FAILED` write.  The database writes themselves are
modelled as total. -/
def processDocument (ext : Extern) (genv : GeminiEnv) (doc : DocRecord)
    (language : String) : DocRecord :=
  let d1 := setProcessing doc
  let extractionResult : Except String ExtractionResult :=
    if doc.mimeType = "application/pdf" then
      extractTextFromPDFWithFallback ext doc.storagePath
    else if doc.mimeType.startsWith "image/" then
      Except.ok (extractTextFromImage ext doc.storagePath)
    else
      Except.ok { text := "", method := ExtractionMethod.none,
                  error := Option.some "Unsupported file type" }
  match extractionResult with
  | Except.error _ => setFailed d1 "An unexpected error occurred during processing"
  | Except.ok er =>
    if er.method = ExtractionMethod.none || er.text.length < 10 then
      setFailed d1 (jsOrOptString er.error "Could not extract text from document")
    else
      match extractStructuredData genv er.text doc.docType language with
      | Except.error _ =>
          setFailed d1 "An unexpected error occurred during processing"
      | Except.ok st =>
        match st.result with
        | Option.some extractedData =>
            setSuccess d1
              { data := extractedData, extractionMethod := er.method }
              extractedData.shortSummary
        | Option.none =>
            setFailed d1 "AI quota exceeded. Please try again later or check your Gemini API billing."

/-- The `where(and(eq(id), eq(userId), isNull(deletedAt)))` single-row
lookup shared by the get-by-id, reprocess, file and delete routes; the
`const [document] = ...` destructuring takes the first matching row. -/
def findDocument (dbl : List DocRecord) (id userId : String) :
    Option DocRecord :=
  (dbl.filter fun d =>
    d.id == id && d.userId == userId && d.deletedAt.isNone).head?

/-- Insert into a list sorted newest-first by `uploadedAt`. -/
def insertByNewest (d : DocRecord) : List DocRecord → List DocRecord
  | [] => [d]
  | x :: xs =>
      if x.uploadedAt ≤ d.uploadedAt then d :: x :: xs
      else x :: insertByNewest d xs

/-- `orderBy(desc(medicalDocuments.uploadedAt))`. -/
def sortNewestFirst : List DocRecord → List DocRecord
  | [] => []
  | d :: xs => insertByNewest d (sortNewestFirst xs)

/-- The rows selected by the list route `GET /`:
`where(and(eq(userId), isNull(deletedAt)))`, ordered newest-first. -/
def listDocumentsRows (dbl : List DocRecord) (userId : String) :
    List DocRecord :=
  sortNewestFirst (dbl.filter fun d =>
    d.userId == userId && d.deletedAt.isNone)

/-- The columns the list route projects out of each row (no
`extractedJson`). -/
structure DocumentListItem where
  id : String
  filename : String
  docType : DocType
  sizeBytes : Nat
  uploadedAt : Nat
  extractionStatus : ExtractionStatus
  summaryText : Option String
deriving DecidableEq, Repr

/-- The list route's column selection. -/
def toListItem (d : DocRecord) : DocumentListItem where
  id := d.id
  filename := d.filename
  docType := d.docType
  sizeBytes := d.sizeBytes
  uploadedAt := d.uploadedAt
  extractionStatus := d.extractionStatus
  summaryText := d.summaryText

/-- Embedding of the list route `GET /` (after its userId validation). -/
def listDocuments (dbl : List DocRecord) (userId : String) :
    List DocumentListItem :=
  (listDocumentsRows dbl userId).map toListItem

/-- Response of the get-by-id route `GET /:id`.  Its `extractedData`
field is `JSON.parse(document.extractedJson)` when non-null; in the
model the stored payload is already structured, so the parse never
fails and the route's `catch { extractedData = null }` is not taken. -/
inductive GetDocResponse where
  | badRequest
  | notFound
  | ok (d : DocRecord) (extractedData : Option StoredPayload)
deriving DecidableEq, Repr

/-- Embedding of `GET /:id`: a missing `userId` is a 400, a row not
matching `(id, userId, deletedAt IS NULL)` is a 404. -/
def getDocumentById (dbl : List DocRecord) (id userId : String) :
    GetDocResponse :=
  if userId = "" then GetDocResponse.badRequest
  else
    match findDocument dbl id userId with
    | Option.none => GetDocResponse.notFound
    | Option.some d => GetDocResponse.ok d d.extractedJson

/-- Response of the reprocess route `POST /:id/reprocess`. -/
inductive ReprocessResponse where
  | badRequestUser
  | notFound
  | alreadyProcessing
  | fileNotFound
  | started
deriving DecidableEq, Repr

/-- What the reprocess route did: the HTTP outcome, the table afterwards,
and whether a new `processDocument` run was kicked off. -/
structure ReprocessOutcome where
  response : ReprocessResponse
  table : List DocRecord
  pipelineStarted : Bool
deriving Repr

/-- `db.update(...).where(eq(medicalDocuments.id, id))`: applies a write
to every row with the given id (the update is keyed by id only). -/
def updateDocById (dbl : List DocRecord) (id : String)
    (f : DocRecord → DocRecord) : List DocRecord :=
  dbl.map fun d => if d.id == id then f d else d

/-- Embedding of `POST /:id/reprocess`: validates `userId`, looks up the
non-deleted row, rejects a document whose status is `PROCESSING` with a
400 before any write, answers 404 when the stored file is gone, and
otherwise resets the row to `PENDING` (clearing `extractedJson` and
`summaryText`) and fires off the orchestrator. -/
def reprocessDocument (ext : Extern) (dbl : List DocRecord)
    (id userId : String) : ReprocessOutcome :=
  if userId = "" then
    { response := ReprocessResponse.badRequestUser, table := dbl,
      pipelineStarted := false }
  else
    match findDocument dbl id userId with
    | Option.none =>
        { response := ReprocessResponse.notFound, table := dbl,
          pipelineStarted := false }
    | Option.some doc =>
        if doc.extractionStatus = ExtractionStatus.PROCESSING then
          { response := ReprocessResponse.alreadyProcessing, table := dbl,
            pipelineStarted := false }
        else if existsSync ext doc.storagePath = false then
          { response := ReprocessResponse.fileNotFound, table := dbl,
            pipelineStarted := false }
        else
          { response := ReprocessResponse.started,
            table := updateDocById dbl id reprocessReset,
            pipelineStarted := true }

/-! ## Helper lemmas -/

theorem trimRightChars_eq_rdropWhile (l : List Char) :
    trimRightChars l = l.rdropWhile isJsWhitespace := rfl

theorem trimLeftChars_trimChars (l : List Char) :
    trimLeftChars (trimChars l) = trimChars l := by
  rw [trimChars, trimRightChars_eq_rdropWhile, trimLeftChars, trimLeftChars]
  rw [List.dropWhile_eq_self_iff]
  intro hl
  have hpre := List.rdropWhile_prefix isJsWhitespace (l.dropWhile isJsWhitespace)
  have h0m : 0 < (l.dropWhile isJsWhitespace).length :=
    lt_of_lt_of_le hl hpre.length_le
  have hget := List.IsPrefix.getElem hpre hl
  simp only [List.get_eq_getElem, hget]
  exact List.dropWhile_get_zero_not _ l h0m

theorem trimChars_idem (l : List Char) :
    trimChars (trimChars l) = trimChars l := by
  show trimRightChars (trimLeftChars (trimChars l)) = trimChars l
  rw [trimLeftChars_trimChars]
  show List.rdropWhile isJsWhitespace
    (List.rdropWhile isJsWhitespace (trimLeftChars l)) = _
  rw [List.rdropWhile_idempotent]
  rfl

theorem jsTrim_idem (s : String) : jsTrim (jsTrim s) = jsTrim s :=
  congrArg String.mk (trimChars_idem s.data)

theorem mem_insertByNewest {a d : DocRecord} {l : List DocRecord} :
    a ∈ insertByNewest d l ↔ a = d ∨ a ∈ l := by
  induction l with
  | nil => simp [insertByNewest]
  | cons x xs ih =>
      by_cases h : x.uploadedAt ≤ d.uploadedAt
      · simp [insertByNewest, h]
      · simp [insertByNewest, h, ih]
        tauto

theorem mem_sortNewestFirst {a : DocRecord} {l : List DocRecord} :
    a ∈ sortNewestFirst l ↔ a ∈ l := by
  induction l with
  | nil => simp [sortNewestFirst]
  | cons x xs ih => simp [sortNewestFirst, mem_insertByNewest, ih]

theorem runGeminiAttempts_le (oracle : Nat → AttemptOutcome) :
    ∀ (attempt r : Nat), (runGeminiAttempts oracle attempt r).attemptsMade ≤ r := by
  intro attempt r
  induction r generalizing attempt with
  | zero => simp [runGeminiAttempts]
  | succ r ih =>
      simp only [runGeminiAttempts]
      cases oracle attempt with
      | ok raw => simp
      | rateLimit =>
          by_cases h : attempt < maxRetries <;> simp [h]
          exact ih (attempt + 1)
      | otherError =>
          by_cases h : attempt = maxRetries <;> simp [h]
          exact ih (attempt + 1)

/-! ## Concrete instances used by counterexamples and witnesses -/

/-- A file system on which no path exists. -/
def extMissingFile : Extern where
  fileSize := fun _ => Option.none
  pdfText := fun _ => ""
  ocrText := fun _ => ""

/-- A PDF whose embedded text layer yields the 2-character string "ab"
and whose OCR pass yields 10 characters: both below their thresholds,
with the OCR text strictly longer. -/
def extShortTexts : Extern where
  fileSize := fun _ => Option.some 5
  pdfText := fun _ => "ab"
  ocrText := fun _ => "0123456789"

/-- A model response carrying the numeric confidence 2. -/
def rawConfidenceTwo : RawParsed where
  confidence := Option.some 2

/-- A model response that omits every optional field. -/
def rawAllMissing : RawParsed := {}

/-- A Gemini environment whose first attempt parses `rawConfidenceTwo`. -/
def genvConfidenceTwo : GeminiEnv where
  hasApiKey := true
  promptRes := Except.ok "prompt"
  oracle := fun _ => AttemptOutcome.ok rawConfidenceTwo

/-- A Gemini environment rate-limited on attempts 1 and 2 and successful
on attempt 3. -/
def genvRateLimitedTwice : GeminiEnv where
  hasApiKey := true
  promptRes := Except.ok "prompt"
  oracle := fun n =>
    if n ≤ 2 then AttemptOutcome.rateLimit
    else AttemptOutcome.ok rawAllMissing

/-! ## Claim theorems -/

/-- C3: the spec says the PDF extractor returns a `method=none` result and
never throws when the file does not exist, and the source's own
`fs.existsSync` branch returning "File not found on server" documents the
same intent; but `fs.statSync(filePath)` is executed first and throws
`ENOENT` on a missing path, so the extractor raises an exception to its
caller and the existence-check branch is dead code. -/
theorem pdf_extractor_throws_on_missing_file :
    extractTextFromPDFWithFallback extMissingFile "scan.pdf" =
      Except.error "ENOENT" := rfl

/-- C6 counterexample: with an embedded text layer trimming to "ab" (2
characters) and OCR trimming to 10 characters — both below their
thresholds — the extractor returns the embedded text, even though the OCR
text is strictly longer; so the returned `text` is not "whichever partial
text was longer". -/
theorem fallback_text_not_longer_counterexample :
    extractTextFromPDFWithFallback extShortTexts "scan.pdf" =
      Except.ok { text := "ab", method := ExtractionMethod.none,
                  error := Option.some "Could not extract sufficient text. The document may be unreadable or contain only images without text." }
    ∧ (jsTrim (extShortTexts.pdfText "scan.pdf")).length
        < (jsTrim (extShortTexts.ocrText "scan.pdf")).length :=
  ⟨rfl, by decide⟩

/-- C6 (amended): when both the embedded-text and OCR stages trim to
below their thresholds, the extractor returns `method = none` with the
"could not extract sufficient text" error, and the `text` field carries
the JavaScript disjunction `trimmedText || trimmedOcrText`: the trimmed
embedded text when it is non-empty, otherwise the trimmed OCR text (not
necessarily the longer of the two). -/
theorem fallback_text_js_or (ext : Extern) (p : String) (n : Nat)
    (hfs : ext.fileSize p = Option.some n) (hn : n ≠ 0)
    (hemb : (jsTrim (ext.pdfText p)).length ≤ 49)
    (hocr : (jsTrim (ext.ocrText p)).length ≤ 19) :
    extractTextFromPDFWithFallback ext p =
      Except.ok { text := jsOrString (jsTrim (ext.pdfText p)) (jsTrim (ext.ocrText p)),
                  method := ExtractionMethod.none,
                  error := Option.some "Could not extract sufficient text. The document may be unreadable or contain only images without text." }
    ∧ (jsTrim (ext.pdfText p) ≠ "" →
        jsOrString (jsTrim (ext.pdfText p)) (jsTrim (ext.ocrText p)) =
          jsTrim (ext.pdfText p))
    ∧ (jsTrim (ext.pdfText p) = "" →
        jsOrString (jsTrim (ext.pdfText p)) (jsTrim (ext.ocrText p)) =
          jsTrim (ext.ocrText p)) := by
  refine ⟨?_, ?_, ?_⟩
  · simp only [extractTextFromPDFWithFallback, extractTextFromPDFWithFallbackT,
      statSyncSize, existsSync, hfs, Option.isSome_some]
    have h50 : ¬ (jsTrim (ext.pdfText p)).length ≥ 50 := by omega
    have h20 : ¬ (jsTrim (ext.ocrText p)).length ≥ 20 := by omega
    simp [hn, h50, h20, Except.map, Except.bind, bind, pure, Except.pure]
  · intro h
    simp [jsOrString, h]
  · intro h
    simp [jsOrString, h]

/-- C6 witness. -/
theorem fallback_text_js_or_witness :
    extractTextFromPDFWithFallback extShortTexts "scan.pdf" =
      Except.ok { text := jsOrString (jsTrim (extShortTexts.pdfText "scan.pdf"))
                            (jsTrim (extShortTexts.ocrText "scan.pdf")),
                  method := ExtractionMethod.none,
                  error := Option.some "Could not extract sufficient text. The document may be unreadable or contain only images without text." } :=
  (fallback_text_js_or extShortTexts "scan.pdf" 5 rfl (by decide)
    (by decide) (by decide)).1

/-- A Gemini environment whose first attempt parses a response omitting
every optional field. -/
def genvAllMissing : GeminiEnv where
  hasApiKey := true
  promptRes := Except.ok "prompt"
  oracle := fun _ => AttemptOutcome.ok rawAllMissing

/-- C7 counterexample: a model response whose numeric `confidence` is 2
is passed through unchanged by the backfill, so the extractor returns a
non-null payload whose `confidence` lies outside [0,1]; the code never
clamps a numeric confidence. -/
theorem confidence_unclamped_counterexample :
    extractStructuredData genvConfidenceTwo "0123456789" DocType.OTHER "en" =
      Except.ok { result := Option.some (backfillParsed rawConfidenceTwo),
                  sleeps := [], attemptsMade := 1 }
    ∧ (backfillParsed rawConfidenceTwo).confidence = 2
    ∧ ¬ ((backfillParsed rawConfidenceTwo).confidence ≤ 1) := by
  refine ⟨rfl, rfl, ?_⟩
  show ¬ ((2 : Rat) ≤ 1)
  norm_num

/-- C7 (amended): on a successful attempt the extractor returns the
backfilled parse; `confidence` is set to 0.5 exactly when the model omits
it or returns a non-numeric value, and a numeric value is passed through
unchanged (in particular it is not clamped to [0,1]). -/
theorem confidence_default_half
    (genv : GeminiEnv) (rawText : String) (dt : DocType) (lang : String)
    (ps : String) (raw : RawParsed)
    (hkey : genv.hasApiKey = true) (hps : genv.promptRes = Except.ok ps)
    (h1 : genv.oracle 1 = AttemptOutcome.ok raw)
    (hne : rawText ≠ "") (hlen : 10 ≤ (jsTrim rawText).length) :
    extractStructuredData genv rawText dt lang =
      Except.ok { result := Option.some (backfillParsed raw), sleeps := [],
                  attemptsMade := 1 }
    ∧ (raw.confidence = Option.none → (backfillParsed raw).confidence = 1 / 2)
    ∧ (∀ q : Rat, raw.confidence = Option.some q →
        (backfillParsed raw).confidence = q) := by
  refine ⟨?_, ?_, ?_⟩
  · have hcond : ¬ (rawText = "" ∨ (jsTrim rawText).length < 10) := by
      push_neg
      exact ⟨hne, by omega⟩
    simp only [extractStructuredData, hkey, hps]
    rw [if_neg (by simpa using hcond)]
    simp [Except.bind, bind, maxRetries, runGeminiAttempts, h1]
  · intro h
    simp [backfillParsed, h]
  · intro q h
    simp [backfillParsed, h]

/-- C7 witness. -/
theorem confidence_default_half_witness :
    extractStructuredData genvAllMissing "0123456789" DocType.OTHER "en" =
      Except.ok { result := Option.some (backfillParsed rawAllMissing),
                  sleeps := [], attemptsMade := 1 }
    ∧ (backfillParsed rawAllMissing).confidence = 1 / 2 :=
  ⟨(confidence_default_half genvAllMissing "0123456789" DocType.OTHER "en"
      "prompt" rawAllMissing rfl rfl rfl (by decide) (by decide)).1,
   (confidence_default_half genvAllMissing "0123456789" DocType.OTHER "en"
      "prompt" rawAllMissing rfl rfl rfl (by decide) (by decide)).2.1 rfl⟩

/-- C5: a Structured-Data Extractor call rate-limited on attempts 1 and 2
that succeeds on attempt 3 sleeps 5000 ms before the second attempt and
10000 ms before the third (5000 × 2^(attempt−1)), makes exactly 3
attempts, and returns the parsed payload; and no run of the retry loop
ever makes more than 3 attempts. -/
theorem gemini_retry_backoff
    (genv : GeminiEnv) (rawText : String) (dt : DocType) (lang : String)
    (ps : String) (raw : RawParsed)
    (hkey : genv.hasApiKey = true) (hps : genv.promptRes = Except.ok ps)
    (h1 : genv.oracle 1 = AttemptOutcome.rateLimit)
    (h2 : genv.oracle 2 = AttemptOutcome.rateLimit)
    (h3 : genv.oracle 3 = AttemptOutcome.ok raw)
    (hne : rawText ≠ "") (hlen : 10 ≤ (jsTrim rawText).length) :
    extractStructuredData genv rawText dt lang =
      Except.ok { result := Option.some (backfillParsed raw),
                  sleeps := [5000, 10000], attemptsMade := 3 }
    ∧ ∀ (oracle : Nat → AttemptOutcome) (a : Nat),
        (runGeminiAttempts oracle a maxRetries).attemptsMade ≤ maxRetries := by
  constructor
  · have hcond : ¬ (rawText = "" ∨ (jsTrim rawText).length < 10) := by
      push_neg
      exact ⟨hne, by omega⟩
    simp only [extractStructuredData, hkey, hps]
    rw [if_neg (by simpa using hcond)]
    simp [Except.bind, bind, maxRetries, baseDelay, runGeminiAttempts,
      h1, h2, h3]
  · intro oracle a
    exact runGeminiAttempts_le oracle a maxRetries

/-- C5 witness. -/
theorem gemini_retry_backoff_witness :
    extractStructuredData genvRateLimitedTwice "0123456789" DocType.OTHER "en" =
      Except.ok { result := Option.some (backfillParsed rawAllMissing),
                  sleeps := [5000, 10000], attemptsMade := 3 } :=
  (gemini_retry_backoff genvRateLimitedTwice "0123456789" DocType.OTHER "en"
    "prompt" rawAllMissing rfl rfl rfl rfl rfl (by decide) (by decide)).1

/-- C4: with an existing, non-empty file, embedded text trimming to ≥ 50
characters (in particular exactly 50) succeeds as `embedded_text` with
the OCR stage never invoked; embedded text trimming to ≤ 49 characters
(in particular exactly 49) always falls through to OCR; OCR output
trimming to ≥ 20 characters succeeds as `ocr` and ≤ 19 yields
`method = none`, on the PDF path and the image path alike. -/
theorem extraction_threshold_boundaries
    (ext : Extern) (p : String) (n : Nat)
    (hfs : ext.fileSize p = Option.some n) (hn : n ≠ 0) :
    ((jsTrim (ext.pdfText p)).length ≥ 50 →
      extractTextFromPDFWithFallbackT ext p =
        Except.ok ({ text := jsTrim (ext.pdfText p),
                     method := ExtractionMethod.embedded_text,
                     error := Option.none }, false))
    ∧ ((jsTrim (ext.pdfText p)).length ≤ 49 →
        (jsTrim (ext.ocrText p)).length ≥ 20 →
        extractTextFromPDFWithFallbackT ext p =
          Except.ok ({ text := jsTrim (ext.ocrText p),
                       method := ExtractionMethod.ocr,
                       error := Option.none }, true))
    ∧ ((jsTrim (ext.pdfText p)).length ≤ 49 →
        (jsTrim (ext.ocrText p)).length ≤ 19 →
        extractTextFromPDFWithFallbackT ext p =
          Except.ok ({ text := jsOrString (jsTrim (ext.pdfText p))
                                 (jsTrim (ext.ocrText p)),
                       method := ExtractionMethod.none,
                       error := Option.some "Could not extract sufficient text. The document may be unreadable or contain only images without text." }, true))
    ∧ ((jsTrim (ext.ocrText p)).length ≥ 20 →
        extractTextFromImage ext p =
          { text := jsTrim (ext.ocrText p), method := ExtractionMethod.ocr,
            error := Option.none })
    ∧ ((jsTrim (ext.ocrText p)).length ≤ 19 →
        extractTextFromImage ext p =
          { text := jsTrim (ext.ocrText p), method := ExtractionMethod.none,
            error := Option.some "Could not extract text from image. The image may be too blurry or contain no readable text." }) := by
  refine ⟨?_, ?_, ?_, ?_, ?_⟩
  · intro h50
    simp [extractTextFromPDFWithFallbackT, statSyncSize, existsSync, hfs,
      hn, h50, Except.bind, bind, pure, Except.pure]
  · intro h49 h20
    have h50 : ¬ (jsTrim (ext.pdfText p)).length ≥ 50 := by omega
    simp [extractTextFromPDFWithFallbackT, statSyncSize, existsSync, hfs,
      hn, h50, h20, Except.bind, bind, pure, Except.pure]
  · intro h49 h19
    have h50 : ¬ (jsTrim (ext.pdfText p)).length ≥ 50 := by omega
    have h20 : ¬ (jsTrim (ext.ocrText p)).length ≥ 20 := by omega
    simp [extractTextFromPDFWithFallbackT, statSyncSize, existsSync, hfs,
      hn, h50, h20, Except.bind, bind, pure, Except.pure]
  · intro h20
    simp [extractTextFromImage, hfs, hn, h20]
  · intro h19
    have h20 : ¬ (jsTrim (ext.ocrText p)).length ≥ 20 := by omega
    simp [extractTextFromImage, hfs, hn, h20]

/-- An existing, non-empty PDF whose text layer yields exactly 50
characters. -/
def extEmbedded50 : Extern where
  fileSize := fun _ => Option.some 7
  pdfText := fun _ => String.mk (List.replicate 50 'a')
  ocrText := fun _ => ""

/-- C4 witness. -/
theorem extraction_threshold_boundaries_witness :
    extractTextFromPDFWithFallbackT extEmbedded50 "x.pdf" =
      Except.ok ({ text := jsTrim (extEmbedded50.pdfText "x.pdf"),
                   method := ExtractionMethod.embedded_text,
                   error := Option.none }, false) :=
  (extraction_threshold_boundaries extEmbedded50 "x.pdf" 7 rfl
    (by decide)).1 (by decide)

/-- A document row currently being processed. -/
def docProcessing : DocRecord where
  id := "d1"
  userId := "u1"
  filename := "a.pdf"
  storagePath := "p1"
  mimeType := "application/pdf"
  sizeBytes := 3
  docType := DocType.OTHER
  uploadedAt := 0
  deletedAt := Option.none
  extractionStatus := ExtractionStatus.PROCESSING
  extractedJson := Option.none
  summaryText := Option.none

/-- C9: a reprocess request on a document whose status is `PROCESSING` is
answered with the "already being processed" error before any write: the
table is returned unchanged and no orchestrator run is started. -/
theorem reprocess_rejected_while_processing
    (ext : Extern) (dbl : List DocRecord) (id userId : String) (d : DocRecord)
    (hu : userId ≠ "") (hfind : findDocument dbl id userId = Option.some d)
    (hst : d.extractionStatus = ExtractionStatus.PROCESSING) :
    reprocessDocument ext dbl id userId =
      { response := ReprocessResponse.alreadyProcessing, table := dbl,
        pipelineStarted := false } := by
  simp [reprocessDocument, hu, hfind, hst]

/-- C9 witness. -/
theorem reprocess_rejected_while_processing_witness :
    reprocessDocument extMissingFile [docProcessing] "d1" "u1" =
      { response := ReprocessResponse.alreadyProcessing,
        table := [docProcessing], pipelineStarted := false } :=
  reprocess_rejected_while_processing extMissingFile [docProcessing]
    "d1" "u1" docProcessing (by decide) rfl rfl

/-- A row returned by the shared single-row lookup is a member of the
table and satisfies the id/user/not-deleted filter. -/
theorem findDocument_some {dbl : List DocRecord} {id userId : String}
    {d : DocRecord} (h : findDocument dbl id userId = Option.some d) :
    d ∈ dbl ∧ d.id = id ∧ d.userId = userId ∧ d.deletedAt = Option.none := by
  unfold findDocument at h
  have hmem : d ∈ dbl.filter (fun x =>
      x.id == id && x.userId == userId && x.deletedAt.isNone) := by
    cases hf : dbl.filter (fun x =>
        x.id == id && x.userId == userId && x.deletedAt.isNone) with
    | nil => rw [hf] at h; simp at h
    | cons a t =>
        rw [hf] at h
        simp only [List.head?_cons, Option.some.injEq] at h
        rw [← h]
        exact List.mem_cons_self a t
  have hp := List.mem_filter.mp hmem
  have hb := hp.2
  simp only [Bool.and_eq_true, beq_iff_eq, Option.isNone_iff_eq_none] at hb
  exact ⟨hp.1, hb.1.1, hb.1.2, hb.2⟩

/-- C8: soft-deleted rows are invisible to the user-facing queries: every
row selected by the list query has `deletedAt` null, the shared lookup
used by get-by-id and reprocess only returns rows with `deletedAt` null,
and when every row matching `(id, userId)` is soft-deleted both get-by-id
and reprocess answer not-found. -/
theorem queries_exclude_soft_deleted
    (ext : Extern) (dbl : List DocRecord) (id userId : String) :
    (∀ d ∈ listDocumentsRows dbl userId, d.deletedAt = Option.none)
    ∧ (∀ d, findDocument dbl id userId = Option.some d →
        d.deletedAt = Option.none)
    ∧ ((∀ d ∈ dbl, d.id = id → d.userId = userId →
          d.deletedAt ≠ Option.none) → userId ≠ "" →
        getDocumentById dbl id userId = GetDocResponse.notFound
        ∧ reprocessDocument ext dbl id userId =
            { response := ReprocessResponse.notFound, table := dbl,
              pipelineStarted := false }) := by
  refine ⟨?_, ?_, ?_⟩
  · intro d hd
    unfold listDocumentsRows at hd
    have hmem := mem_sortNewestFirst.mp hd
    have hb := (List.mem_filter.mp hmem).2
    simp only [Bool.and_eq_true, beq_iff_eq, Option.isNone_iff_eq_none] at hb
    exact hb.2
  · intro d h
    exact (findDocument_some h).2.2.2
  · intro hall hu
    have hfind : findDocument dbl id userId = Option.none := by
      cases hf : findDocument dbl id userId with
      | none => rfl
      | some d =>
          exfalso
          have hd := findDocument_some hf
          exact hall d hd.1 hd.2.1 hd.2.2.1 hd.2.2.2
    constructor
    · simp [getDocumentById, hu, hfind]
    · simp [reprocessDocument, hu, hfind]

/-- A soft-deleted document row. -/
def docDeleted : DocRecord where
  id := "d2"
  userId := "u1"
  filename := "b.pdf"
  storagePath := "p2"
  mimeType := "application/pdf"
  sizeBytes := 3
  docType := DocType.OTHER
  uploadedAt := 1
  deletedAt := Option.some 2
  extractionStatus := ExtractionStatus.SUCCESS
  extractedJson := Option.some { data := backfillParsed rawAllMissing,
                                 extractionMethod := ExtractionMethod.ocr }
  summaryText := Option.some "s"

/-- C8 witness. -/
theorem queries_exclude_soft_deleted_witness :
    getDocumentById [docDeleted] "d2" "u1" = GetDocResponse.notFound
    ∧ reprocessDocument extMissingFile [docDeleted] "d2" "u1" =
        { response := ReprocessResponse.notFound, table := [docDeleted],
          pipelineStarted := false } :=
  (queries_exclude_soft_deleted extMissingFile [docDeleted] "d2" "u1").2.2
    (by decide) (by decide)

/-- C1: every write the repository performs on a document row preserves
the invariant that `extractedJson` is non-null exactly when
`extractionStatus` is `SUCCESS`: the upload insert starts `PENDING` with
null `extractedJson`, the orchestrator's `PROCESSING` and `FAILED`
updates leave `extractedJson` null, its `SUCCESS` update stores a
non-null payload, and the reprocess reset returns to `PENDING` clearing
`extractedJson`; hence the invariant holds in every reachable row state. -/
theorem extractedJson_iff_success_of_reachable
    (d : DocRecord) (h : Reachable d) :
    d.extractedJson ≠ Option.none ↔
      d.extractionStatus = ExtractionStatus.SUCCESS := by
  induction h with
  | upload id userId filename storagePath mimeType sizeBytes docType uploadedAt =>
      simp [uploadInsert]
  | toProcessing hr hst ih =>
      rename_i d'
      have hnone : d'.extractedJson = Option.none := by
        by_contra hne
        have hs := ih.mp hne
        rw [hst] at hs
        exact absurd hs (by simp)
      simp [setProcessing, hnone]
  | toFailed msg hr hst ih =>
      rename_i d'
      have hnone : d'.extractedJson = Option.none := by
        by_contra hne
        have hs := ih.mp hne
        rw [hst] at hs
        exact absurd hs (by simp)
      simp [setFailed, hnone]
  | toSuccess payload summary hr hst ih =>
      simp [setSuccess]
  | reprocess hr hst ih =>
      simp [reprocessReset]
  | delete t hr ih =>
      simpa [softDelete] using ih

/-- A concrete stored payload. -/
def payloadOcr : StoredPayload where
  data := backfillParsed rawAllMissing
  extractionMethod := ExtractionMethod.ocr

/-- C1 witness. -/
theorem extractedJson_iff_success_witness :
    (setSuccess (setProcessing (uploadInsert "d1" "u1" "a.pdf" "p1"
        "application/pdf" 3 DocType.OTHER 0)) payloadOcr "sum").extractedJson
        ≠ Option.none
      ↔ (setSuccess (setProcessing (uploadInsert "d1" "u1" "a.pdf" "p1"
        "application/pdf" 3 DocType.OTHER 0)) payloadOcr
        "sum").extractionStatus = ExtractionStatus.SUCCESS :=
  extractedJson_iff_success_of_reachable _
    (Reachable.toSuccess payloadOcr "sum"
      (Reachable.toProcessing
        (Reachable.upload "d1" "u1" "a.pdf" "p1" "application/pdf" 3
          DocType.OTHER 0) rfl) rfl)

/-- C2: a completed orchestrator run always ends in a terminal status —
never `PROCESSING` — and an exception thrown by the extraction stage or
by the structured-extraction stage is caught at the top level and turned
into `FAILED` with the generic unexpected-error summary. -/
theorem processDocument_never_leaves_processing
    (ext : Extern) (genv : GeminiEnv) (doc : DocRecord) (language : String) :
    ((processDocument ext genv doc language).extractionStatus =
        ExtractionStatus.SUCCESS
      ∨ (processDocument ext genv doc language).extractionStatus =
        ExtractionStatus.FAILED)
    ∧ (∀ e, doc.mimeType = "application/pdf" →
        extractTextFromPDFWithFallback ext doc.storagePath = Except.error e →
        (processDocument ext genv doc language).extractionStatus =
            ExtractionStatus.FAILED
        ∧ (processDocument ext genv doc language).summaryText =
            Option.some "An unexpected error occurred during processing")
    ∧ (∀ e er, doc.mimeType = "application/pdf" →
        extractTextFromPDFWithFallback ext doc.storagePath = Except.ok er →
        ¬ (er.method = ExtractionMethod.none ∨ er.text.length < 10) →
        extractStructuredData genv er.text doc.docType language =
          Except.error e →
        (processDocument ext genv doc language).extractionStatus =
            ExtractionStatus.FAILED
        ∧ (processDocument ext genv doc language).summaryText =
            Option.some "An unexpected error occurred during processing") := by
  refine ⟨?_, ?_, ?_⟩
  · unfold processDocument
    split
    · cases hE : extractTextFromPDFWithFallback ext doc.storagePath with
      | error e => simp [setFailed, setProcessing]
      | ok er =>
          by_cases hg : er.method = ExtractionMethod.none ∨ er.text.length < 10
          · simp [hg, setFailed, setProcessing]
          · cases hAI : extractStructuredData genv er.text doc.docType language with
            | error e2 => simp [hg, hAI, setFailed, setProcessing]
            | ok st =>
                cases hres : st.result with
                | some dta => simp [hg, hAI, hres, setSuccess, setProcessing]
                | none => simp [hg, hAI, hres, setFailed, setProcessing]
    · split
      · by_cases hg : (extractTextFromImage ext doc.storagePath).method =
            ExtractionMethod.none
            ∨ (extractTextFromImage ext doc.storagePath).text.length < 10
        · simp [hg, setFailed, setProcessing]
        · cases hAI : extractStructuredData genv
              (extractTextFromImage ext doc.storagePath).text doc.docType
              language with
          | error e2 => simp [hg, hAI, setFailed, setProcessing]
          | ok st =>
              cases hres : st.result with
              | some dta => simp [hg, hAI, hres, setSuccess, setProcessing]
              | none => simp [hg, hAI, hres, setFailed, setProcessing]
      · simp [setFailed, setProcessing]
  · intro e hmime herr
    simp [processDocument, hmime, herr, setFailed, setProcessing]
  · intro e er hmime hok hguard hai
    push_neg at hguard
    have hg1 : ¬ er.method = ExtractionMethod.none := hguard.1
    have hg2 : ¬ er.text.length < 10 := by omega
    simp [processDocument, hmime, hok, hg1, hg2, hai, setFailed,
      setProcessing]

/-- A freshly uploaded pending document whose stored file is missing. -/
def docPendingMissingFile : DocRecord :=
  uploadInsert "d3" "u1" "c.pdf" "gone.pdf" "application/pdf" 3
    DocType.OTHER 0

/-- C2 witness: with the stored file missing, the PDF extractor throws
(`ENOENT`) and the orchestrator converts the exception into `FAILED`. -/
theorem processDocument_never_leaves_processing_witness :
    (processDocument extMissingFile genvAllMissing docPendingMissingFile
        "en").extractionStatus = ExtractionStatus.FAILED
    ∧ (processDocument extMissingFile genvAllMissing docPendingMissingFile
        "en").summaryText =
        Option.some "An unexpected error occurred during processing" :=
  (processDocument_never_leaves_processing extMissingFile genvAllMissing
    docPendingMissingFile "en").2.1 "ENOENT" rfl rfl

/-- C10: whenever the text extractor (PDF or image path) returns a result
with `method ≠ none`, the returned text is already trimmed and at least
20 characters long (at least 50 when `method = embedded_text`); hence the
orchestrator's extraction-failure guard
`method === "none" || text.length < 10` is equivalent to
`method === "none"` on every extractor result: the length disjunct can
never be its sole trigger. -/
theorem extractor_text_trimmed_and_bounded (ext : Extern) (p : String) :
    (∀ r, extractTextFromPDFWithFallback ext p = Except.ok r →
      (r.method ≠ ExtractionMethod.none →
        jsTrim r.text = r.text ∧ 20 ≤ r.text.length
        ∧ (r.method = ExtractionMethod.embedded_text → 50 ≤ r.text.length))
      ∧ ((r.method = ExtractionMethod.none ∨ r.text.length < 10) ↔
          r.method = ExtractionMethod.none))
    ∧ (∀ r, extractTextFromImage ext p = r →
      (r.method ≠ ExtractionMethod.none →
        jsTrim r.text = r.text ∧ 20 ≤ r.text.length)
      ∧ ((r.method = ExtractionMethod.none ∨ r.text.length < 10) ↔
          r.method = ExtractionMethod.none)) := by
  constructor
  · intro r hok
    cases hfs : ext.fileSize p with
    | none =>
        simp [extractTextFromPDFWithFallback, extractTextFromPDFWithFallbackT,
          statSyncSize, existsSync, hfs, Except.map, Except.bind, bind] at hok
    | some n =>
        by_cases hn : n = 0
        · simp [extractTextFromPDFWithFallback, extractTextFromPDFWithFallbackT,
            statSyncSize, existsSync, hfs, hn, Except.bind, bind, pure,
            Except.pure, Except.map] at hok
          have hm : r.method = ExtractionMethod.none := by rw [← hok]
          rw [hm]
          exact ⟨fun hmm => absurd rfl hmm, by simp⟩
        · by_cases h50 : (jsTrim (ext.pdfText p)).length ≥ 50
          · simp [extractTextFromPDFWithFallback, extractTextFromPDFWithFallbackT,
              statSyncSize, existsSync, hfs, hn, h50, Except.bind, bind, pure,
              Except.pure, Except.map] at hok
            have ht : r.text = jsTrim (ext.pdfText p) := by rw [← hok]
            have hm : r.method = ExtractionMethod.embedded_text := by rw [← hok]
            rw [ht, hm]
            refine ⟨fun _ => ⟨jsTrim_idem _, by omega, fun _ => h50⟩, ?_⟩
            constructor
            · rintro (hc | hc)
              · exact hc
              · exact absurd hc (by omega)
            · intro hc
              exact absurd hc (by simp)
          · by_cases h20 : (jsTrim (ext.ocrText p)).length ≥ 20
            · simp [extractTextFromPDFWithFallback, extractTextFromPDFWithFallbackT,
                statSyncSize, existsSync, hfs, hn, h50, h20, Except.bind, bind,
                pure, Except.pure, Except.map] at hok
              have ht : r.text = jsTrim (ext.ocrText p) := by rw [← hok]
              have hm : r.method = ExtractionMethod.ocr := by rw [← hok]
              rw [ht, hm]
              refine ⟨fun _ => ⟨jsTrim_idem _, by omega, by simp⟩, ?_⟩
              constructor
              · rintro (hc | hc)
                · exact hc
                · exact absurd hc (by omega)
              · intro hc
                exact absurd hc (by simp)
            · simp [extractTextFromPDFWithFallback, extractTextFromPDFWithFallbackT,
                statSyncSize, existsSync, hfs, hn, h50, h20, Except.bind, bind,
                pure, Except.pure, Except.map] at hok
              have hm : r.method = ExtractionMethod.none := by rw [← hok]
              rw [hm]
              exact ⟨fun hmm => absurd rfl hmm, by simp⟩
  · intro r hok
    cases hfs : ext.fileSize p with
    | none =>
        simp [extractTextFromImage, hfs] at hok
        have hm : r.method = ExtractionMethod.none := by rw [← hok]
        rw [hm]
        exact ⟨fun hmm => absurd rfl hmm, by simp⟩
    | some n =>
        by_cases hn : n = 0
        · simp [extractTextFromImage, hfs, hn] at hok
          have hm : r.method = ExtractionMethod.none := by rw [← hok]
          rw [hm]
          exact ⟨fun hmm => absurd rfl hmm, by simp⟩
        · by_cases h20 : (jsTrim (ext.ocrText p)).length ≥ 20
          · simp [extractTextFromImage, hfs, hn, h20] at hok
            have ht : r.text = jsTrim (ext.ocrText p) := by rw [← hok]
            have hm : r.method = ExtractionMethod.ocr := by rw [← hok]
            rw [ht, hm]
            refine ⟨fun _ => ⟨jsTrim_idem _, by omega⟩, ?_⟩
            constructor
            · rintro (hc | hc)
              · exact hc
              · exact absurd hc (by omega)
            · intro hc
              exact absurd hc (by simp)
          · simp [extractTextFromImage, hfs, hn, h20] at hok
            have hm : r.method = ExtractionMethod.none := by rw [← hok]
            rw [hm]
            exact ⟨fun hmm => absurd rfl hmm, by simp⟩

/-- The result of the PDF extractor on `extEmbedded50`. -/
def resultEmbedded50 : ExtractionResult where
  text := jsTrim (extEmbedded50.pdfText "x.pdf")
  method := ExtractionMethod.embedded_text
  error := Option.none

/-- C10 witness. -/
theorem extractor_text_trimmed_and_bounded_witness :
    jsTrim resultEmbedded50.text = resultEmbedded50.text
    ∧ 20 ≤ resultEmbedded50.text.length
    ∧ (resultEmbedded50.method = ExtractionMethod.embedded_text →
        50 ≤ resultEmbedded50.text.length) :=
  ((extractor_text_trimmed_and_bounded extEmbedded50 "x.pdf").1
    resultEmbedded50 rfl).1 (by decide)

end MedAssist
